import Mathlib

/-!
Verification of the ICO container core of npm-icon-gen (src/ico-editor.js).

The file buffer is modelled as a total function from byte index to byte
value; Node Buffer write calls become pointwise updates storing each byte
modulo 256 (little-endian for multi-byte fields), and read calls reassemble
the bytes. The class methods of IcoEditor become plain functions.
-/

namespace IcoEditor

/-- Sizes required for the Windows of the ICO file (IcoImageSizes in the
source). -/
def IcoImageSizes : List Nat := [16, 24, 32, 48, 64, 128, 256]

/-- Constants for the ICO file (IcoSpec in the source). -/
structure IcoSpecT where
  headerSize : Nat
  directorySize : Nat

/-- IcoSpec = \x7b headerSize: 6, directorySize: 16 \x7d. -/
def IcoSpec : IcoSpecT := ⟨6, 16⟩

/-- Result of Fs.stat on an image file; the writer only uses stat.size. -/
structure FileStat where
  size : Nat

/-- An ImageInfo record handed to the writer: pixel edge length, the stat
of the file (whose size field is the byte length of the content), and the
file path (modelled as a numeric identifier resolved by a read oracle). -/
structure ImageInfo where
  size : Nat
  stat : FileStat
  path : Nat

/-- Directory entry data (ICODirectory in the source). -/
structure IcoDirectory where
  width : Nat
  height : Nat
  colors : Nat
  reserved : Nat
  planes : Nat
  bpp : Nat
  size : Nat
  offset : Nat

/-- Header data (ICOHeader in the source). -/
structure IcoHeader where
  reserved : Nat
  type : Nat
  count : Nat

/-- Buffer.writeUInt8: store one byte. The stored byte is the value modulo
256 (the source always passes values in range, where the modulo is the
identity). -/
def writeUInt8 (buffer : Nat → Nat) (value offset : Nat) : Nat → Nat :=
  fun k => if k = offset then value % 256 else buffer k

/-- Buffer.writeUInt16LE: store two bytes, little endian. -/
def writeUInt16LE (buffer : Nat → Nat) (value offset : Nat) : Nat → Nat :=
  fun k =>
    if k = offset then value % 256
    else if k = offset + 1 then value / 256 % 256
    else buffer k

/-- Buffer.writeUInt32LE: store four bytes, little endian. -/
def writeUInt32LE (buffer : Nat → Nat) (value offset : Nat) : Nat → Nat :=
  fun k =>
    if k = offset then value % 256
    else if k = offset + 1 then value / 256 % 256
    else if k = offset + 2 then value / 65536 % 256
    else if k = offset + 3 then value / 16777216 % 256
    else buffer k

/-- Buffer.readUInt8. -/
def readUInt8 (buffer : Nat → Nat) (offset : Nat) : Nat := buffer offset

/-- Buffer.readUInt16LE. -/
def readUInt16LE (buffer : Nat → Nat) (offset : Nat) : Nat :=
  buffer offset + 256 * buffer (offset + 1)

/-- Buffer.readUInt32LE. -/
def readUInt32LE (buffer : Nat → Nat) (offset : Nat) : Nat :=
  buffer offset + 256 * buffer (offset + 1) + 65536 * buffer (offset + 2) +
    16777216 * buffer (offset + 3)

/-- IcoEditor.writeHeader: reserved = 0 at offset 0, type at offset 2,
count at offset 4, each as uint16 LE. -/
def writeHeader (buffer : Nat → Nat) (type count : Nat) : Nat → Nat :=
  writeUInt16LE (writeUInt16LE (writeUInt16LE buffer 0 0) type 2) count 4

/-- IcoEditor.writeDirectory: the eight fields of one 16-byte directory
entry, written at offset .. offset + 15; the reserved byte is written as
the literal 0. -/
def writeDirectory (buffer : Nat → Nat) (offset : Nat) (d : IcoDirectory) : Nat → Nat :=
  writeUInt32LE
    (writeUInt32LE
      (writeUInt16LE
        (writeUInt16LE
          (writeUInt8
            (writeUInt8
              (writeUInt8
                (writeUInt8 buffer d.width offset)
                d.height (offset + 1))
              d.colors (offset + 2))
            0 (offset + 3))
          d.planes (offset + 4))
        d.bpp (offset + 6))
      d.size (offset + 8))
    d.offset (offset + 12)

/-- IcoEditor.readHeader. -/
def readHeader (buffer : Nat → Nat) : IcoHeader :=
  { reserved := readUInt16LE buffer 0
    type := readUInt16LE buffer 2
    count := readUInt16LE buffer 4 }

/-- IcoEditor.readDirectory. The source reads the width byte at the
absolute index 0, not at offset + 0; every other field is read relative to
offset. This is translated exactly as written. -/
def readDirectory (buffer : Nat → Nat) (offset : Nat) : IcoDirectory :=
  { width := readUInt8 buffer 0
    height := readUInt8 buffer (offset + 1)
    colors := readUInt8 buffer (offset + 2)
    reserved := readUInt8 buffer (offset + 3)
    planes := readUInt16LE buffer (offset + 4)
    bpp := readUInt16LE buffer (offset + 6)
    size := readUInt32LE buffer (offset + 8)
    offset := readUInt32LE buffer (offset + 12) }

/-- The directory-entry record built inside the forEach of
IcoEditor.writeDirectories for one target, given the running image data
offset. -/
def directoryFor (t : ImageInfo) (imgOffset : Nat) : IcoDirectory :=
  { width := if 256 ≤ t.size then 0 else t.size
    height := if 256 ≤ t.size then 0 else t.size
    colors := 0
    reserved := 0
    planes := 1
    bpp := 32
    size := t.stat.size
    offset := imgOffset }

/-- The forEach loop of IcoEditor.writeDirectories: dirOffset advances by
16 per entry and imgOffset advances by the byte length of each target. -/
def writeDirectoriesAux (buffer : Nat → Nat) (dirOffset imgOffset : Nat) :
    List ImageInfo → Nat → Nat
  | [] => buffer
  | t :: ts =>
      writeDirectoriesAux
        (writeDirectory buffer dirOffset (directoryFor t imgOffset))
        (dirOffset + 16) (imgOffset + t.stat.size) ts

/-- IcoEditor.writeDirectories: dirOffset starts at headerSize and
imgOffset starts at headerSize + directorySize * targets.length. -/
def writeDirectories (buffer : Nat → Nat) (targets : List ImageInfo) : Nat → Nat :=
  writeDirectoriesAux buffer IcoSpec.headerSize
    (IcoSpec.headerSize + IcoSpec.directorySize * targets.length) targets

/-- The header-plus-directory buffer built inside IcoEditor.write: a fresh
(uninitialized, hence arbitrary buf0) buffer of headerSize +
directorySize * N bytes, filled by writeHeader with type 1 and count N and
then by writeDirectories. -/
def writeBuffer (buf0 : Nat → Nat) (targets : List ImageInfo) : Nat → Nat :=
  writeDirectories (writeHeader buf0 1 targets.length) targets

/-- IcoEditor.filter. An absent input (JS undefined or null) is the none
case; the JS guard !(images && 0 < images.length) also returns [] for an
empty list. The inner some over IcoImageSizes with the exists flag is the
List.any of the equality test. -/
def filter (images : Option (List ImageInfo)) : List ImageInfo :=
  match images with
  | none => []
  | some imgs =>
      if imgs.length = 0 then []
      else imgs.filter (fun image => IcoImageSizes.any (fun s => image.size == s))

/-- A JavaScript value, as far as truthiness is concerned. -/
inductive JsValue where
  | undefinedV
  | nullV
  | boolV (b : Bool)
  | objectV
  | functionV (f : Unit → JsValue)

/-- JS truthiness: undefined, null and false are falsy; objects and
function references are truthy. -/
def truthy : JsValue → Bool
  | JsValue.undefinedV => false
  | JsValue.nullV => false
  | JsValue.boolV b => b
  | JsValue.objectV => true
  | JsValue.functionV _ => true

/-- The fs.Stats object returned by Fs.statSync. The source accesses the
property stat.isDirectory without invoking it; on a real fs.Stats object
that property is a method, that is, a functionV value. -/
structure Stats where
  isDirectory : JsValue

/-- The error message of IcoEditor.write for an empty target list. -/
def invalidImagesMsg : String :=
  "Invalid arguments: It does not contain the information necessary for the \"images\"."

/-- The error message of IcoEditor.write for a missing parent directory. -/
def invalidDestMsg : String :=
  "Invalid arguments: \"dest\" of the parent directory does not exist."

/-- How one call of IcoEditor.write exits its synchronous part. -/
inductive WriteOutcome where
  | callbackError (msg : String)
  | threw (e : String)
  | proceeded (buffer : Nat → Nat)

/-- IcoEditor.write up to the point where the stream is created:
the empty-target check calls the callback with an error and returns;
Fs.statSync on the parent directory either throws (the exception escapes
write, modelled by the statSyncResult parameter being an error) or returns
a Stats object; the guard !(stat && stat.isDirectory) tests the truthiness
of the stat object itself and of the un-invoked isDirectory property; past
the guard, write fills the header-plus-directory buffer and writes it to
the stream (the proceeded outcome carries that buffer). -/
def write (buf0 : Nat → Nat) (targets : List ImageInfo)
    (statSyncResult : Except String Stats) : WriteOutcome :=
  if targets.length = 0 then
    WriteOutcome.callbackError invalidImagesMsg
  else
    match statSyncResult with
    | Except.error e => WriteOutcome.threw e
    | Except.ok stat =>
        if !(truthy JsValue.objectV && truthy stat.isDirectory) then
          WriteOutcome.callbackError invalidDestMsg
        else
          WriteOutcome.proceeded (writeBuffer buf0 targets)

/-- The settlement of the promise returned by one writeImage call: it
rejects with the Fs.readFile error, and resolves after writing the data to
the stream. fs is the read oracle mapping a path to the readFile result. -/
def taskResult (fs : Nat → Except String (List Nat)) (t : ImageInfo) :
    Except String Unit :=
  match fs t.path with
  | Except.ok _ => Except.ok ()
  | Except.error e => Except.error e

/-- An argument passed to Promise.prototype.then: either a function or a
non-callable value (in the source, an already-constructed promise). -/
inductive ThenArg where
  | callable (f : Unit → Except String Unit)
  | notCallable (v : Except String Unit)

/-- ECMAScript semantics of p.then(arg): a callable argument runs on
fulfillment of p and a rejection of p passes through; a non-callable
argument is replaced by the identity handler, so the result adopts the
settlement of p and the argument value is ignored entirely (in particular
a rejection of a promise passed as the argument is never propagated). -/
def promiseThen (prev : Except String Unit) (arg : ThenArg) : Except String Unit :=
  match prev, arg with
  | Except.ok u, ThenArg.callable f => f u
  | Except.error e, ThenArg.callable _ => Except.error e
  | p, ThenArg.notCallable _ => p

/-- The reduce chain of IcoEditor.writeImages:
tasks.reduce((prev, current) => prev.then(current), Promise.resolve()).
Each current is a promise, not a function, so each step is promiseThen
with a notCallable argument. -/
def writeImagesChain (results : List (Except String Unit)) : Except String Unit :=
  results.foldl (fun prev current => promiseThen prev (ThenArg.notCallable current))
    (Except.ok ())

/-- The argument the completion callback of writeImages receives: the
chain of the task settlements, resolved to cb() with no argument on
fulfillment (none) and to cb(err) on rejection (some err). -/
def writeImagesCallbackArg (fs : Nat → Except String (List Nat))
    (targets : List ImageInfo) : Option String :=
  match writeImagesChain (targets.map (taskResult fs)) with
  | Except.ok _ => none
  | Except.error e => some e

/-- The payload bytes delivered to the write stream by writeImages. In the
source, targets.map(writeImage) invokes writeImage on every target at once,
so every Fs.readFile is issued eagerly; each read writes its data to the
stream inside its own completion callback, so the stream receives the
payloads in the order the reads complete. completionOrder lists the target
indices in completion order; a failed read writes nothing. -/
def writeImagesStreamBytes (fs : Nat → Except String (List Nat))
    (targets : List ImageInfo) (completionOrder : List Nat) : List Nat :=
  (completionOrder.filterMap (fun i =>
    (targets[i]?).bind (fun t =>
      match fs t.path with
      | Except.ok data => some data
      | Except.error _ => none))).flatten

/-- Byte length of the first i targets 0 .. i-1 combined. -/
def prefixBytes : List ImageInfo → Nat → Nat
  | _, 0 => 0
  | [], _ + 1 => 0
  | t :: ts, i + 1 => t.stat.size + prefixBytes ts i

/-- Byte j of a 16-byte directory entry holding d, per the layout written
by writeDirectory. -/
def dirByte (d : IcoDirectory) : Nat → Nat
  | 0 => d.width % 256
  | 1 => d.height % 256
  | 2 => d.colors % 256
  | 3 => 0
  | 4 => d.planes % 256
  | 5 => d.planes / 256 % 256
  | 6 => d.bpp % 256
  | 7 => d.bpp / 256 % 256
  | 8 => d.size % 256
  | 9 => d.size / 256 % 256
  | 10 => d.size / 65536 % 256
  | 11 => d.size / 16777216 % 256
  | 12 => d.offset % 256
  | 13 => d.offset / 256 % 256
  | 14 => d.offset / 65536 % 256
  | 15 => d.offset / 16777216 % 256
  | _ + 16 => 0

/-- Sample target of the spec scenario: size 16, 20 content bytes. -/
def sampleTarget : ImageInfo := ⟨16, ⟨20⟩, 0⟩

/-- Second sample target of the spec scenario: size 256, 500 content
bytes. -/
def sampleTarget2 : ImageInfo := ⟨256, ⟨500⟩, 1⟩

/-- The two-target list of the spec scenario. -/
def sampleTargets2 : List ImageInfo := [sampleTarget, sampleTarget2]

/-- A read oracle on which every Fs.readFile fails. -/
def enoentFs : Nat → Except String (List Nat) :=
  fun _ => Except.error "ENOENT: no such file"

/-- A read oracle with distinct one-byte contents for paths 0 and 1. -/
def sampleFs : Nat → Except String (List Nat) :=
  fun p => if p = 0 then Except.ok [1] else Except.ok [2]

/-- A Stats record whose isDirectory property is a method, as on every
real fs.Stats object; invoked, the method would report a non-directory. -/
def sampleStats : Stats := ⟨JsValue.functionV (fun _ => JsValue.boolV false)⟩

/-- A byte index strictly below the entry offset, or at least 16 past it,
is untouched by writeDirectory. -/
lemma writeDirectory_apply_out (b : Nat → Nat) (off : Nat) (d : IcoDirectory)
    (k : Nat) (h : k < off ∨ off + 16 ≤ k) : writeDirectory b off d k = b k := by
  have h0 : ¬ (k = off) := by omega
  have h1 : ¬ (k = off + 1) := by omega
  have h2 : ¬ (k = off + 2) := by omega
  have h3 : ¬ (k = off + 3) := by omega
  have h4 : ¬ (k = off + 4) := by omega
  have h5 : ¬ (k = off + 5) := by omega
  have h6 : ¬ (k = off + 6) := by omega
  have h7 : ¬ (k = off + 7) := by omega
  have h8 : ¬ (k = off + 8) := by omega
  have h9 : ¬ (k = off + 9) := by omega
  have h10 : ¬ (k = off + 10) := by omega
  have h11 : ¬ (k = off + 11) := by omega
  have h12 : ¬ (k = off + 12) := by omega
  have h13 : ¬ (k = off + 13) := by omega
  have h14 : ¬ (k = off + 14) := by omega
  have h15 : ¬ (k = off + 15) := by omega
  simp [writeDirectory, writeUInt8, writeUInt16LE, writeUInt32LE, Nat.add_assoc,
    h0, h1, h2, h3, h4, h5, h6, h7, h8, h9, h10, h11, h12, h13, h14, h15]

/-- Byte j of the block written by writeDirectory, for j < 16. -/
lemma writeDirectory_byte (b : Nat → Nat) (off : Nat) (d : IcoDirectory)
    (j : Nat) (hj : j < 16) : writeDirectory b off d (off + j) = dirByte d j := by
  interval_cases j <;>
    simp [writeDirectory, writeUInt8, writeUInt16LE, writeUInt32LE, dirByte,
      Nat.add_assoc]

/-- Bytes below the running directory offset are untouched by the
writeDirectories loop. -/
lemma writeDirectoriesAux_apply_lt (ts : List ImageInfo) :
    ∀ (b : Nat → Nat) (dOff iOff k : Nat), k < dOff →
      writeDirectoriesAux b dOff iOff ts k = b k := by
  induction ts with
  | nil => intro b dOff iOff k _; rfl
  | cons t ts ih =>
      intro b dOff iOff k h
      simp only [writeDirectoriesAux]
      rw [ih _ _ _ _ (by omega)]
      exact writeDirectory_apply_out b dOff _ k (Or.inl h)

/-- Byte j of entry i in the block written by the writeDirectories loop:
it is byte j of the directory record of target i, whose data offset is the
initial image offset advanced by the byte length of the targets before
i. -/
lemma writeDirectoriesAux_entry (ts : List ImageInfo) :
    ∀ (i : Nat) (h : i < ts.length) (b : Nat → Nat) (dOff iOff j : Nat), j < 16 →
      writeDirectoriesAux b dOff iOff ts (dOff + 16 * i + j) =
        dirByte (directoryFor (ts.get ⟨i, h⟩) (iOff + prefixBytes ts i)) j := by
  induction ts with
  | nil => intro i h; exact absurd h (by simp)
  | cons t ts ih =>
      intro i h b dOff iOff j hj
      cases i with
      | zero =>
          simp only [writeDirectoriesAux]
          rw [writeDirectoriesAux_apply_lt ts _ _ _ _ (by omega)]
          simp only [Nat.mul_zero, Nat.add_zero, List.get, prefixBytes]
          exact writeDirectory_byte b dOff _ j hj
      | succ i =>
          simp only [writeDirectoriesAux]
          have e : dOff + 16 * (i + 1) + j = (dOff + 16) + 16 * i + j := by ring
          rw [e, ih i (by simpa using Nat.lt_of_succ_lt_succ (by simpa using h)) _ _ _ j hj]
          simp only [List.get, prefixBytes, Nat.add_assoc]

/-- C2: for every target list of length N and every entry index i, the
dataOffset field written into directory entry i (the uint32 at byte
6 + 16 * i + 12 of the written buffer) equals 6 + 16 * N plus the sum of
the byte lengths of targets 0 through i - 1, provided that value fits the
uint32 field. In particular entry 0 gets 6 + 16 * N and each entry gets
the end offset of the payload of the previous entry. -/
theorem write_dataOffset (buf0 : Nat → Nat) (targets : List ImageInfo) (i : Nat)
    (h : i < targets.length)
    (hfit : 6 + 16 * targets.length + prefixBytes targets i < 4294967296) :
    readUInt32LE (writeBuffer buf0 targets) (6 + 16 * i + 12) =
      6 + 16 * targets.length + prefixBytes targets i := by
  have hw : writeBuffer buf0 targets =
      writeDirectoriesAux (writeHeader buf0 1 targets.length) 6
        (6 + 16 * targets.length) targets := rfl
  have e13 : 6 + 16 * i + 12 + 1 = 6 + 16 * i + 13 := by omega
  have e14 : 6 + 16 * i + 12 + 2 = 6 + 16 * i + 14 := by omega
  have e15 : 6 + 16 * i + 12 + 3 = 6 + 16 * i + 15 := by omega
  have b12 := writeDirectoriesAux_entry targets i h (writeHeader buf0 1 targets.length)
    6 (6 + 16 * targets.length) 12 (by omega)
  have b13 := writeDirectoriesAux_entry targets i h (writeHeader buf0 1 targets.length)
    6 (6 + 16 * targets.length) 13 (by omega)
  have b14 := writeDirectoriesAux_entry targets i h (writeHeader buf0 1 targets.length)
    6 (6 + 16 * targets.length) 14 (by omega)
  have b15 := writeDirectoriesAux_entry targets i h (writeHeader buf0 1 targets.length)
    6 (6 + 16 * targets.length) 15 (by omega)
  simp only [readUInt32LE, hw]
  rw [e13, e14, e15, b12, b13, b14, b15]
  simp only [dirByte, directoryFor]
  omega

/-- Witness for C2 at the scenario of the spec: two targets of byte
lengths 20 and 500; entry 1 records data offset 6 + 32 + 20 = 58. -/
theorem write_dataOffset_witness :
    readUInt32LE (writeBuffer (fun _ => 0) sampleTargets2) (6 + 16 * 1 + 12) = 58 :=
  write_dataOffset (fun _ => 0) sampleTargets2 1 (by decide) (by decide)

/-- C3: for every written target, the stored width byte (byte 6 + 16 * i)
and height byte (byte 6 + 16 * i + 1) are 0 when the size is 256 and equal
the size when it is below 256, and the two bytes are always equal to each
other. -/
theorem write_width_height (buf0 : Nat → Nat) (targets : List ImageInfo) (i : Nat)
    (h : i < targets.length) :
    ((targets.get ⟨i, h⟩).size = 256 →
        writeBuffer buf0 targets (6 + 16 * i) = 0 ∧
        writeBuffer buf0 targets (6 + 16 * i + 1) = 0) ∧
    ((targets.get ⟨i, h⟩).size < 256 →
        writeBuffer buf0 targets (6 + 16 * i) = (targets.get ⟨i, h⟩).size ∧
        writeBuffer buf0 targets (6 + 16 * i + 1) = (targets.get ⟨i, h⟩).size) ∧
    writeBuffer buf0 targets (6 + 16 * i) = writeBuffer buf0 targets (6 + 16 * i + 1) := by
  have hw : writeBuffer buf0 targets =
      writeDirectoriesAux (writeHeader buf0 1 targets.length) 6
        (6 + 16 * targets.length) targets := rfl
  have b0 := writeDirectoriesAux_entry targets i h (writeHeader buf0 1 targets.length)
    6 (6 + 16 * targets.length) 0 (by omega)
  have b1 := writeDirectoriesAux_entry targets i h (writeHeader buf0 1 targets.length)
    6 (6 + 16 * targets.length) 1 (by omega)
  simp only [Nat.add_zero] at b0
  rw [hw, b0, b1]
  refine ⟨fun hs => ?_, fun hs => ?_, ?_⟩
  · simp only [List.get_eq_getElem] at hs
    simp [dirByte, directoryFor, hs]
  · have hn : ¬ (256 ≤ (targets.get ⟨i, h⟩).size) := by omega
    simp only [List.get_eq_getElem] at hs hn
    simp [dirByte, directoryFor, hn, Nat.mod_eq_of_lt hs]
  · simp [dirByte, directoryFor]

/-- Witness for C3 at entry 1 of the scenario of the spec: size 256 is
stored as width byte 0 and height byte 0. -/
theorem write_width_height_witness :
    writeBuffer (fun _ => 0) sampleTargets2 (6 + 16 * 1) = 0 ∧
    writeBuffer (fun _ => 0) sampleTargets2 (6 + 16 * 1 + 1) = 0 :=
  (write_width_height (fun _ => 0) sampleTargets2 1 (by decide)).1 rfl

/-- C5: for every non-empty target list whose length fits the uint16 count
field, decoding the written buffer with readHeader yields reserved 0,
type 1 and count equal to the number of targets. -/
theorem readHeader_after_write (buf0 : Nat → Nat) (targets : List ImageInfo)
    (_hne : 0 < targets.length) (hcount : targets.length < 65536) :
    readHeader (writeBuffer buf0 targets) = ⟨0, 1, targets.length⟩ := by
  have hw : writeBuffer buf0 targets =
      writeDirectoriesAux (writeHeader buf0 1 targets.length) 6
        (6 + 16 * targets.length) targets := rfl
  have a0 := writeDirectoriesAux_apply_lt targets (writeHeader buf0 1 targets.length)
    6 (6 + 16 * targets.length) 0 (by omega)
  have a1 := writeDirectoriesAux_apply_lt targets (writeHeader buf0 1 targets.length)
    6 (6 + 16 * targets.length) 1 (by omega)
  have a2 := writeDirectoriesAux_apply_lt targets (writeHeader buf0 1 targets.length)
    6 (6 + 16 * targets.length) 2 (by omega)
  have a3 := writeDirectoriesAux_apply_lt targets (writeHeader buf0 1 targets.length)
    6 (6 + 16 * targets.length) 3 (by omega)
  have a4 := writeDirectoriesAux_apply_lt targets (writeHeader buf0 1 targets.length)
    6 (6 + 16 * targets.length) 4 (by omega)
  have a5 := writeDirectoriesAux_apply_lt targets (writeHeader buf0 1 targets.length)
    6 (6 + 16 * targets.length) 5 (by omega)
  simp only [readHeader, readUInt16LE, hw, Nat.reduceAdd]
  rw [a0, a1, a2, a3, a4, a5]
  simp only [writeHeader, writeUInt16LE, IcoHeader.mk.injEq]
  norm_num
  omega

/-- Witness for C5: a one-target list decodes back to count 1, type 1. -/
theorem readHeader_after_write_witness :
    readHeader (writeBuffer (fun _ => 0) [sampleTarget]) = ⟨0, 1, 1⟩ :=
  readHeader_after_write (fun _ => 0) [sampleTarget] (by decide) (by decide)

/-- C1 (failing input): for the single target of size 16 with 20 content
bytes, readDirectory at entry offset 6 returns width 0 — the byte at
absolute index 0, which the header write set to 0 — instead of the written
width 16, so writing and then decoding the entry does not reproduce the
size-derived width; the height, dataSize and dataOffset of the same entry
do come back as written. -/
theorem readDirectory_width_breaks_roundtrip :
    (readDirectory (writeBuffer (fun _ => 0) [sampleTarget]) 6).width = 0 ∧
    sampleTarget.size = 16 ∧
    (readDirectory (writeBuffer (fun _ => 0) [sampleTarget]) 6).height = 16 ∧
    (readDirectory (writeBuffer (fun _ => 0) [sampleTarget]) 6).size = 20 ∧
    (readDirectory (writeBuffer (fun _ => 0) [sampleTarget]) 6).offset = 22 ∧
    (0 : Nat) ≠ 16 :=
  ⟨rfl, rfl, rfl, rfl, rfl, by decide⟩

/-- filter on a present list is List.filter with the membership test
against IcoImageSizes. -/
lemma filter_some_eq (l : List ImageInfo) :
    filter (some l) = l.filter (fun image => decide (image.size ∈ IcoImageSizes)) := by
  simp only [filter]
  by_cases hl : l.length = 0
  · rw [if_pos hl]
    have he : l = [] := List.length_eq_zero.mp hl
    subst he; rfl
  · rw [if_neg hl]
    apply List.filter_congr
    intro x _
    by_cases hm : x.size ∈ IcoImageSizes
    · rw [decide_eq_true hm]
      exact List.any_eq_true.mpr ⟨x.size, hm, by simp⟩
    · rw [decide_eq_false hm]
      cases hx : IcoImageSizes.any (fun s => x.size == s) with
      | false => rfl
      | true =>
          obtain ⟨s, hs, he⟩ := List.any_eq_true.mp hx
          exact absurd (by rw [eq_of_beq he]; exact hs) hm

/-- C4: filter keeps exactly the records whose size is in the allowed set
IcoImageSizes, as an order-preserving, duplicate-keeping List.filter, and
returns [] on an absent (none) input; the empty list is the l = [] case of
the quantifier. -/
theorem filter_spec :
    filter none = [] ∧
    ∀ (l : List ImageInfo),
      filter (some l) = l.filter (fun image => decide (image.size ∈ IcoImageSizes)) ∧
      List.Sublist (filter (some l)) l := by
  refine ⟨rfl, fun l => ⟨filter_some_eq l, ?_⟩⟩
  rw [filter_some_eq l]
  exact List.filter_sublist l

/-- The reduce chain ignores every task settlement: folding promiseThen
with non-callable arguments keeps the initial fulfilled promise. -/
lemma writeImagesChain_ok (results : List (Except String Unit)) :
    writeImagesChain results = Except.ok () := by
  induction results with
  | nil => rfl
  | cons r rs ih =>
      simp only [writeImagesChain, List.foldl_cons, promiseThen] at ih ⊢
      exact ih

/-- C6 (failing input): the completion callback of writeImages always
receives no error — in particular with a read oracle on which every
Fs.readFile fails, the single task settles rejected and the callback is
still invoked as cb() with no error, because each task promise is passed
to then as a non-callable argument and its rejection is never observed by
the chain. -/
theorem writeImages_callback_no_error_on_read_failure :
    (∀ (fs : Nat → Except String (List Nat)) (targets : List ImageInfo),
        writeImagesCallbackArg fs targets = none) ∧
    writeImagesCallbackArg enoentFs [sampleTarget] = none ∧
    taskResult enoentFs sampleTarget = Except.error "ENOENT: no such file" := by
  refine ⟨fun fs targets => ?_, rfl, rfl⟩
  simp only [writeImagesCallbackArg, writeImagesChain_ok]

/-- C7 (failing input): when the parent directory of dest does not exist,
Fs.statSync throws, and write exits by that exception; the callback is
never invoked with the InvalidArguments error. -/
theorem write_missing_parent_throws :
    write (fun _ => 0) [sampleTarget]
        (Except.error "ENOENT: no such file or directory") =
      WriteOutcome.threw "ENOENT: no such file or directory" := rfl

/-- C8: write with an empty target list invokes the callback once with the
InvalidArguments message and returns before touching the filesystem
(before statSync, buffer fill and stream creation), for every destination
state. -/
theorem write_empty_targets_callback_error (buf0 : Nat → Nat)
    (statSyncResult : Except String Stats) :
    write buf0 [] statSyncResult = WriteOutcome.callbackError invalidImagesMsg := rfl

/-- C9 (failing input): two targets with distinct one-byte contents; when
the read of target 1 completes before the read of target 0 — an order
nothing in writeImages forbids, since all reads are issued at map time and
each writes to the stream in its own completion callback — the stream
receives [2, 1] instead of the input-order concatenation [1, 2]. -/
theorem writeImages_payload_completion_order :
    writeImagesStreamBytes sampleFs sampleTargets2 [1, 0] = [2, 1] ∧
    writeImagesStreamBytes sampleFs sampleTargets2 [0, 1] = [1, 2] ∧
    List.Perm [1, 0] (List.range sampleTargets2.length) ∧
    ([2, 1] : List Nat) ≠ [1, 2] :=
  ⟨rfl, rfl, by decide, by decide⟩

/-- C10: the parent-directory error branch of write is unreachable: when
statSync returns a Stats object whose isDirectory property is a method (as
on every real fs.Stats, whatever the method would return when invoked),
the guard is false and write proceeds to emit the buffer; when the parent
directory is missing, statSync throws, and write exits by that exception
without invoking the callback. -/
theorem write_parent_check_unreachable (buf0 : Nat → Nat) (targets : List ImageInfo)
    (stat : Stats) (hne : targets.length ≠ 0)
    (hfn : ∃ f, stat.isDirectory = JsValue.functionV f) :
    write buf0 targets (Except.ok stat) =
      WriteOutcome.proceeded (writeBuffer buf0 targets) ∧
    ∀ e, write buf0 targets (Except.error e) = WriteOutcome.threw e := by
  obtain ⟨f, hf⟩ := hfn
  constructor
  · simp [write, hne, hf, truthy]
  · intro e
    simp [write, hne]

/-- Witness for C10: a Stats record of a non-directory still passes the
guard, and a statSync exception escapes as an exception. -/
theorem write_parent_check_unreachable_witness :
    write (fun _ => 0) [sampleTarget] (Except.ok sampleStats) =
      WriteOutcome.proceeded (writeBuffer (fun _ => 0) [sampleTarget]) ∧
    write (fun _ => 0) [sampleTarget] (Except.error "ENOENT") =
      WriteOutcome.threw "ENOENT" := by
  have h := write_parent_check_unreachable (fun _ => 0) [sampleTarget] sampleStats
    (by decide) ⟨fun _ => JsValue.boolV false, rfl⟩
  exact ⟨h.1, h.2 "ENOENT"⟩

end IcoEditor
